import Mathlib

/-!
# Verification of the caseload synchronization engine and derived properties

A shallow embedding of the parts of the `caseload` repository that the
specification's testable properties talk about:

* the entity store rows (`app/models/{team,project,cve,tracker,util}.py`),
* the reconciliation engine (`data/sync/sync_service.py`),
* the Jira source adapter's pure helpers
  (`data/sources/jira_source.py`: `_extract_cve_ids`, `_parse_date`),
* the blast-radius severity aggregation
  (`analytics/impact/blast_radius.py`: `_get_highest_severity`),
* the watermark handling of the sync-triggering view
  (`app/blueprints/main/__init__.py`: the Jira phase of `sync`).

Python machine-level details are embedded as follows: ORM rows become
structures over `Nat` ids with each table's autoincrement counter carried in
the store; `datetime` values that the sync engine merely copies around are
abstract `Nat` timestamps; exceptions become `Except`; lazily evaluated
generator output becomes a list of events (`FetchItem`), where a fetch
failure mid-stream is an explicit event that aborts enumeration.
-/

namespace Caseload

/-! ## Entity store rows (app/models/*.py)

Only the columns that the claims and the sync engine touch are carried;
purely presentational columns (`description`, `url`, `cvss_score`,
timestamps maintained by the database, ...) are omitted.
-/

/-- A row of the `teams` table (app/models/team.py). -/
structure TeamRow where
  id : Nat
  name : String
deriving Repr, DecidableEq

/-- A row of the `projects` table (app/models/project.py). -/
structure ProjectRow where
  id : Nat
  key : String
  name : String
  team_id : Option Nat
deriving Repr, DecidableEq

/-- A row of the `cves` table (app/models/cve.py). -/
structure CVERow where
  id : Nat
  cve_id : String
deriving Repr, DecidableEq

/-- A row of the `trackers` table (app/models/tracker.py). -/
structure TrackerRow where
  id : Nat
  jira_key : String
  summary : Option String := none
  status : Option String := none
  resolution : Option String := none
  priority : Option String := none
  severity : Option String := none
  assignee : Option String := none
  reporter : Option String := none
  created_date : Option Nat := none
  updated_date : Option Nat := none
  resolved_date : Option Nat := none
  due_date : Option Nat := none
  sla_date : Option Nat := none
  sla_breach : Bool := false
  project_id : Option Nat := none
  cve_id : Option Nat := none
  last_synced_at : Option Nat := none
deriving Repr, DecidableEq

/-- The relational store: the four entity tables plus the `util` key-value
table (app/models/util.py), together with each table's autoincrement
counter (SQLite autoincrement starts at 1). -/
structure Store where
  teams : List TeamRow := []
  projects : List ProjectRow := []
  cves : List CVERow := []
  trackers : List TrackerRow := []
  util : List (String × String) := []
  nextProjectId : Nat := 1
  nextCveId : Nat := 1
  nextTrackerId : Nat := 1
deriving Repr, DecidableEq

/-- Normalized record yielded by a source adapter
(`RawTracker` in data/sources/base.py; the unused `custom_fields` map is
omitted). -/
structure RawTracker where
  source_key : String
  source_type : String
  project_key : String
  summary : Option String := none
  status : Option String := none
  resolution : Option String := none
  priority : Option String := none
  severity : Option String := none
  assignee : Option String := none
  reporter : Option String := none
  created_date : Option Nat := none
  updated_date : Option Nat := none
  resolved_date : Option Nat := none
  due_date : Option Nat := none
  sla_date : Option Nat := none
  cve_ids : List String := []
  labels : List String := []
deriving Repr, DecidableEq

/-- Statistics dictionary built by `SyncService.sync_from_source`
(sync_service.py lines 56-62). -/
structure Stats where
  trackers_created : Nat
  trackers_updated : Nat
  cves_created : Nat
  projects_created : Nat
  errors : List String
deriving Repr, DecidableEq

/-- The fresh statistics dictionary of sync_service.py lines 56-62. -/
def initStats : Stats :=
  { trackers_created := 0, trackers_updated := 0, cves_created := 0,
    projects_created := 0, errors := [] }

/-- Replace the first element satisfying `p` by its image under `f`,
leaving the rest of the list alone.  This models an in-place mutation of
the single ORM object returned by a `filter_by(...).first()` query. -/
def updateFirst (p : α → Bool) (f : α → α) : List α → List α
  | [] => []
  | x :: xs => if p x then f x :: xs else x :: updateFirst p f xs

/-! ## The reconciliation engine (data/sync/sync_service.py) -/

/-- Overwrite the mutable tracker fields from the record
(sync_service.py lines 128-143).  `jira_key` and `id` are not touched. -/
def applyFields (now : Nat) (raw : RawTracker) (project : ProjectRow)
    (cve : Option CVERow) (t : TrackerRow) : TrackerRow :=
  { t with
    project_id := some project.id
    cve_id := cve.map (·.id)
    summary := raw.summary
    status := raw.status
    resolution := raw.resolution
    priority := raw.priority
    severity := raw.severity
    assignee := raw.assignee
    reporter := raw.reporter
    created_date := raw.created_date
    updated_date := raw.updated_date
    resolved_date := raw.resolved_date
    due_date := raw.due_date
    sla_date := raw.sla_date
    last_synced_at := some now }

/-- The get-or-create loop over the record's CVE ids
(sync_service.py lines 106-116).  The running `cve` binding ends up
holding the last-processed CVE. -/
def processCves (stats : Stats) (store : Store) (cve : Option CVERow) :
    List String → Option CVERow × Stats × Store
  | [] => (cve, stats, store)
  | cid :: rest =>
    match store.cves.find? (fun c => c.cve_id == cid) with
    | some existing => processCves stats store (some existing) rest
    | none =>
      let c : CVERow := { id := store.nextCveId, cve_id := cid }
      processCves
        { stats with cves_created := stats.cves_created + 1 }
        { store with cves := store.cves ++ [c], nextCveId := store.nextCveId + 1 }
        (some c) rest

/-- Get-or-create the tracker by `jira_key` and overwrite its fields
(sync_service.py lines 118-143). -/
def processTrackerRow (now : Nat) (raw : RawTracker) (project : ProjectRow)
    (cve : Option CVERow) (stats : Stats) (store : Store) : Stats × Store :=
  match store.trackers.find? (fun t => t.jira_key == raw.source_key) with
  | some _ =>
    let upd := updateFirst (fun t => t.jira_key == raw.source_key)
      (applyFields now raw project cve) store.trackers
    ({ stats with trackers_updated := stats.trackers_updated + 1 },
     { store with trackers := upd })
  | none =>
    let t : TrackerRow :=
      applyFields now raw project cve { id := store.nextTrackerId, jira_key := raw.source_key }
    ({ stats with trackers_created := stats.trackers_created + 1 },
     { store with trackers := store.trackers ++ [t],
                  nextTrackerId := store.nextTrackerId + 1 })

/-- The CVE phase and tracker phase of `_process_tracker`, given the
resolved project. -/
def processTrackerWithProject (now : Nat) (raw : RawTracker) (project : ProjectRow)
    (stats : Stats) (store : Store) : Stats × Store :=
  match processCves stats store none raw.cve_ids with
  | (cve, stats2, store2) => processTrackerRow now raw project cve stats2 store2

/-- `SyncService._process_tracker` (sync_service.py lines 87-143): get or
create the project, then each CVE, then upsert the tracker, threading the
statistics dictionary.  `now` stands for `datetime.utcnow()`. -/
def processTracker (now : Nat) (raw : RawTracker) (stats : Stats) (store : Store) :
    Stats × Store :=
  match store.projects.find? (fun p => p.key == raw.project_key) with
  | some project => processTrackerWithProject now raw project stats store
  | none =>
    let project : ProjectRow :=
      { id := store.nextProjectId, key := raw.project_key,
        name := raw.project_key, team_id := none }
    processTrackerWithProject now raw project
      { stats with projects_created := stats.projects_created + 1 }
      { store with projects := store.projects ++ [project],
                   nextProjectId := store.nextProjectId + 1 }

/-- One event of an adapter's lazily evaluated record stream: either a
yielded record, or an exception raised by the generator (e.g. a failed
page fetch), which ends the stream. -/
inductive FetchItem where
  | record (r : RawTracker)
  | fetchError (e : String)
deriving Repr, DecidableEq

/-- Outcome of processing one record: either the updated statistics and
session state, or a raised exception message together with the partially
mutated statistics and session state at the raise point (Python mutates
in place, so partial writes survive the exception). -/
abbrev ProcResult := Except (String × Stats × Store) (Stats × Store)

/-- Per-record processing step, abstracted so that theorems about the
sync loop's exception handling can quantify over processors that may
raise. -/
abbrev ProcFn := RawTracker → Stats → Store → ProcResult

/-- The embedded `_process_tracker` as a processing step.  The embedding
is total, so it never raises. -/
def procTrackerE (now : Nat) : ProcFn := fun raw stats store =>
  .ok (processTracker now raw stats store)

/-- The record loop of `sync_from_source` (sync_service.py lines 64-76):
a per-record exception is caught and appended to the error list as
`"<source_key>: <message>"`, and processing continues; an exception from
the record stream itself propagates, so nothing is committed. -/
def syncLoop (proc : ProcFn) : List FetchItem → Stats → Store →
    Except String (Stats × Store)
  | [], stats, store => .ok (stats, store)
  | .fetchError e :: _, _, _ => .error e
  | .record r :: rest, stats, store =>
    match proc r stats store with
    | .ok (stats2, store2) => syncLoop proc rest stats2 store2
    | .error (e, stats2, store2) =>
      syncLoop proc rest
        { stats2 with errors := stats2.errors ++ [r.source_key ++ ": " ++ e] } store2

/-- `SyncService.sync_from_source` (sync_service.py lines 26-85): reject
an empty `project_keys` list with a `ValueError` before anything else;
otherwise drive the record stream and, on exhausting it, commit (`.ok`
carries the committed store; `.error` means the run raised and nothing
was committed). -/
def sync_from_source (proc : ProcFn) (items : List FetchItem)
    (project_keys : List String) (store : Store) : Except String (Stats × Store) :=
  if project_keys.isEmpty then
    .error "project_keys is required - cannot sync without specifying projects"
  else
    syncLoop proc items initStats store

/-! ## Watermark store (app/models/util.py) and the sync view
(app/blueprints/main/__init__.py) -/

/-- `Util.get` (util.py lines 21-25), with a `none` default. -/
def util_get (store : Store) (k : String) : Option String :=
  (store.util.find? (fun kv => kv.1 == k)).map (·.2)

/-- `Util.set` (util.py lines 27-36): upsert by key. -/
def util_set (store : Store) (k v : String) : Store :=
  if (store.util.find? (fun kv => kv.1 == k)).isSome then
    { store with util := updateFirst (fun kv => kv.1 == k) (fun kv => (kv.1, v)) store.util }
  else
    { store with util := store.util ++ [(k, v)] }

/-- `Util.get_last_sync` (util.py lines 38-44).  Datetimes are `Nat`
timestamps, with `isoformat` embedded as the decimal string rendering. -/
def get_last_sync (store : Store) : Option Nat :=
  (util_get store "last_sync_datetime").bind (fun s => s.toNat?)

/-- `Util.set_last_sync` (util.py lines 46-49). -/
def set_last_sync (store : Store) (dt : Nat) : Store :=
  util_set store "last_sync_datetime" (toString dt)

/-- The Jira phase of the `sync` view (app/blueprints/main/__init__.py
lines 53-104), starting after the config reconciliation: return early on
an empty project-key list or a failed connection test; otherwise run
`sync_from_source` and advance the watermark only when it returns without
raising.  `now` stands for the `sync_start_time` taken before the run. -/
def sync_jira (conn_ok : Bool) (items : List FetchItem)
    (project_keys : List String) (store : Store) (now : Nat) : Store :=
  if project_keys.isEmpty then store
  else if conn_ok = false then store
  else
    match sync_from_source (procTrackerE now) items project_keys store with
    | .ok (_, store2) => set_last_sync store2 now
    | .error _ => store

/-- The `project_keys` guard of `JiraDataSource.fetch_trackers`
(jira_source.py lines 88-89), seen through the event-stream embedding:
with an empty key list, the generator raises `ValueError` before
fetching anything, so its stream is a single error event; otherwise the
stream is whatever the paginated search produces (`stream`). -/
def fetch_trackers_items (project_keys : List String)
    (stream : List FetchItem) : List FetchItem :=
  if project_keys.isEmpty then
    [FetchItem.fetchError "project_keys is required - cannot fetch without specifying projects"]
  else stream

/-! ## Derived model properties (app/models/tracker.py, app/models/cve.py) -/

/-- Python `str.lower()` on the ASCII strings this codebase compares
(statuses and severities), embedded character-wise. -/
def strLower (s : String) : String := ⟨s.data.map Char.toLower⟩

/-- The closed-status set of `Tracker.is_open` (tracker.py line 49). -/
def closed_statuses : List String := ["done", "closed", "resolved", "cancelled"]

/-- `Tracker.is_open` (tracker.py lines 46-50):
`self.status.lower() not in closed_statuses if self.status else True`.
An absent status is open; an empty string is falsy in Python, hence also
open. -/
def is_open (t : TrackerRow) : Bool :=
  match t.status with
  | none => true
  | some s => if s.data.isEmpty then true else !(closed_statuses.contains (strLower s))

/-- The `Tracker.project` relationship: resolve the foreign key
`project_id` against the `projects` table. -/
def tracker_project (store : Store) (t : TrackerRow) : Option ProjectRow :=
  t.project_id.bind fun pid => store.projects.find? (fun p => p.id == pid)

/-- The `Project.team` relationship: resolve the foreign key `team_id`
against the `teams` table. -/
def project_team (store : Store) (p : ProjectRow) : Option TeamRow :=
  p.team_id.bind fun tid => store.teams.find? (fun tm => tm.id == tid)

/-- The `CVE.trackers` relationship: all trackers whose `cve_id` foreign
key references this CVE row. -/
def cve_trackers (store : Store) (c : CVERow) : List TrackerRow :=
  store.trackers.filter (fun t => t.cve_id == some c.id)

/-- `CVE.affected_teams` (cve.py lines 31-38): walk this CVE's trackers,
keep each tracker's project's team when both resolve, and deduplicate
(the Python `set` of ORM objects deduplicates by row identity; rows here
compare by value, with the primary key making that the same thing). -/
def affected_teams (store : Store) (c : CVERow) : List TeamRow :=
  (((cve_trackers store c).filterMap
      (fun t => (tracker_project store t).bind (project_team store)))).dedup

/-! ## Severity aggregation (analytics/impact/blast_radius.py) -/

/-- The `severity_order` dictionary of `_get_highest_severity`
(blast_radius.py line 47). -/
def severity_order : List (String × Nat) :=
  [("critical", 4), ("important", 3), ("moderate", 2), ("low", 1)]

/-- `severity_order.get(s.lower(), 0)` (blast_radius.py line 53). -/
def severity_rank (s : String) : Nat :=
  (severity_order.lookup (strLower s)).getD 0

/-- The accumulator loop of `_get_highest_severity`
(blast_radius.py lines 48-58), carrying `highest` and `highest_rank`.
An absent severity is skipped; an empty string is falsy in Python and is
skipped too. -/
def highestSeverityGo : List TrackerRow → Option String → Nat → Option String
  | [], highest, _ => highest
  | t :: ts, highest, highest_rank =>
    match t.severity with
    | none => highestSeverityGo ts highest highest_rank
    | some s =>
      if s.data.isEmpty then highestSeverityGo ts highest highest_rank
      else
        let rank := severity_rank s
        if highest_rank < rank then highestSeverityGo ts (some s) rank
        else highestSeverityGo ts highest highest_rank

/-- `BlastRadiusMetric._get_highest_severity` (blast_radius.py
lines 42-58). -/
def get_highest_severity (trackers : List TrackerRow) : Option String :=
  highestSeverityGo trackers none 0

/-- The rank a tracker contributes to the severity scan: the rank of its
severity, with an absent (or falsy-empty, hence unranked) severity
counting as 0. -/
def trackRank (t : TrackerRow) : Nat :=
  (t.severity.map severity_rank).getD 0

/-- The highest rank among a list of trackers (0 when none is ranked). -/
def maxRank (trackers : List TrackerRow) : Nat :=
  trackers.foldr (fun t a => max (trackRank t) a) 0

/-! ## CVE-id extraction (data/sources/jira_source.py lines 21, 223-226)

`CVE_PATTERN = re.compile(r"CVE-\d{4}-\d{4,}", re.IGNORECASE)` and
`_extract_cve_ids` applies `findall`, then `set`, then upper-cases.
`re.findall` is embedded as a left-to-right, non-overlapping scan: at
each position try to match the pattern (the quantifiers `{4}` and `{4,}`
admit no useful backtracking because a digit can never match the literal
dash that follows), emit the match and resume after it, else move one
character right. -/

/-- Split off the leading run of ASCII digits (the greedy `\d*`). -/
def spanDigits : List Char → List Char × List Char
  | [] => ([], [])
  | c :: cs =>
    if c.isDigit then (c :: (spanDigits cs).1, (spanDigits cs).2)
    else ([], c :: cs)

/-- Try to match `CVE-\d{4}-\d{4,}` (case-insensitively) at the head of
the character list; on success return the matched characters and the
remainder. -/
def matchCVE : List Char → Option (List Char × List Char)
  | c1 :: c2 :: c3 :: '-' :: rest =>
    if c1.toLower = 'c' ∧ c2.toLower = 'v' ∧ c3.toLower = 'e' then
      if (spanDigits rest).1.length = 4 then
        match (spanDigits rest).2 with
        | '-' :: rest3 =>
          if 4 ≤ (spanDigits rest3).1.length then
            some (c1 :: c2 :: c3 :: '-' ::
                    ((spanDigits rest).1 ++ '-' :: (spanDigits rest3).1),
                  (spanDigits rest3).2)
          else none
        | _ => none
      else none
    else none
  | _ => none

/-- The non-overlapping scan of `re.findall`, fuelled by the input length
(each step either consumes a whole match or one character, so the input
length is enough fuel). -/
def findallCVEAux : Nat → List Char → List (List Char)
  | 0, _ => []
  | _ + 1, [] => []
  | fuel + 1, c :: cs =>
    match matchCVE (c :: cs) with
    | some (m, rest) => m :: findallCVEAux fuel rest
    | none => findallCVEAux fuel cs

/-- `CVE_PATTERN.findall(text)`. -/
def findallCVE (cs : List Char) : List (List Char) :=
  findallCVEAux cs.length cs

/-- Python `str.upper()` on the ASCII strings the pattern can match. -/
def upperStr (m : List Char) : String :=
  String.mk (m.map Char.toUpper)

/-- `JiraDataSource._extract_cve_ids` (jira_source.py lines 223-226):
`[cve.upper() for cve in set(self.CVE_PATTERN.findall(text))]`.  The
`set` deduplicates the raw (case-sensitive) matches before upper-casing;
its iteration order is embedded as first-occurrence order. -/
def extract_cve_ids (text : String) : List String :=
  ((findallCVE text.data).dedup).map upperStr

/-- The shape of a string matched by `CVE-\d{4}-\d{4,}` with
`re.IGNORECASE`: a case-insensitive `CVE`, a dash, exactly four digits,
a dash, and at least four digits. -/
def CVEShape (m : List Char) : Prop :=
  ∃ c1 c2 c3 ds ds2,
    m = c1 :: c2 :: c3 :: '-' :: (ds ++ '-' :: ds2) ∧
    c1.toLower = 'c' ∧ c2.toLower = 'v' ∧ c3.toLower = 'e' ∧
    ds.length = 4 ∧ (∀ d ∈ ds, d.isDigit) ∧
    4 ≤ ds2.length ∧ (∀ d ∈ ds2, d.isDigit)

/-! ## Date parsing (data/sources/jira_source.py lines 228-236)

`_parse_date` is annotated `str | None` but is also fed raw custom-field
values (jira_source.py line 219), so the embedding models the Python
values it can meet: `None`, strings, objects without a `replace`
attribute (e.g. numbers), and objects whose `replace` method exists but
rejects two positional string arguments (e.g. `datetime.replace`, which
raises `TypeError` on `replace("Z", "+00:00")`). -/

/-- The Python exception classes relevant to `_parse_date`. -/
inductive PyErr where
  | valueError
  | attributeError
  | typeError
deriving Repr, DecidableEq

/-- A parsed `datetime.fromisoformat` result. -/
structure PyDateTime where
  year : Nat
  month : Nat
  day : Nat
  hour : Nat := 0
  minute : Nat := 0
  second : Nat := 0
  microsecond : Nat := 0
  tzoffsetMinutes : Option Int := none
deriving Repr, DecidableEq

/-- The dynamic values `_parse_date` can receive. -/
inductive PyVal where
  | pyNone
  | pyStr (s : String)
  | pyInt (n : Int)
  | pyDatetime (d : PyDateTime)
deriving Repr, DecidableEq

/-- Python truthiness of those values (`if not date_str`). -/
def pyTruthy : PyVal → Bool
  | .pyNone => false
  | .pyStr s => !s.data.isEmpty
  | .pyInt n => n != 0
  | .pyDatetime _ => true

/-- One step per character of Python `str.replace` (all occurrences,
left to right, non-overlapping), fuelled by the input length. -/
def replaceListAux (pat sub : List Char) : Nat → List Char → List Char
  | 0, cs => cs
  | _ + 1, [] => []
  | fuel + 1, c :: cs =>
    if pat.isPrefixOf (c :: cs) then
      sub ++ replaceListAux pat sub fuel ((c :: cs).drop pat.length)
    else c :: replaceListAux pat sub fuel cs

/-- Python `str.replace(pat, sub)` for a non-empty pattern (the adapter
only ever substitutes `"Z"`). -/
def pyStrReplace (s pat sub : String) : String :=
  ⟨replaceListAux pat.data sub.data s.data.length s.data⟩

/-- `date_str.replace("Z", "+00:00")` under Python's dynamic dispatch:
strings substitute every occurrence; values without a `replace`
attribute raise `AttributeError`; `datetime.replace` exists but rejects
positional string arguments with `TypeError`. -/
def pyReplace (v : PyVal) (pat sub : String) : Except PyErr String :=
  match v with
  | .pyStr s => .ok (pyStrReplace s pat sub)
  | .pyNone => .error .attributeError
  | .pyInt _ => .error .attributeError
  | .pyDatetime _ => .error .typeError

/-- Read exactly `n` ASCII digits as a number, most significant first. -/
def takeDigitsNAux (acc : Nat) : Nat → List Char → Option (Nat × List Char)
  | 0, cs => some (acc, cs)
  | _ + 1, [] => none
  | n + 1, c :: cs =>
    if c.isDigit then takeDigitsNAux (acc * 10 + (c.toNat - '0'.toNat)) n cs
    else none

/-- Read exactly `n` ASCII digits as a number. -/
def takeDigitsN : Nat → List Char → Option (Nat × List Char) :=
  takeDigitsNAux 0

/-- Parse the optional UTC offset `±HH[:]MM`. -/
def parseIsoOffset : List Char → Option (Option Int × List Char)
  | [] => some (none, [])
  | c :: cs =>
    if c = '+' ∨ c = '-' then
      match takeDigitsN 2 cs with
      | none => none
      | some (hh, rest) =>
        let rest2 := match rest with
          | ':' :: r => r
          | r => r
        match takeDigitsN 2 rest2 with
        | none => none
        | some (mm, rest3) =>
          if 59 < mm then none
          else
            let total : Int := (hh : Int) * 60 + (mm : Int)
            some (some (if c = '-' then -total else total), rest3)
    else none

/-- Parse the optional fractional seconds `.f{1,6}`. -/
def parseIsoFraction : List Char → Option (Nat × List Char)
  | '.' :: cs =>
    let (ds, rest) := spanDigits cs
    if ds.length = 0 ∨ 6 < ds.length then none
    else
      let v := ds.foldl (fun a c => a * 10 + (c.toNat - '0'.toNat)) 0
      let scaled := v * 10 ^ (6 - ds.length)
      some (scaled, rest)
  | cs => some (0, cs)

/-- Days in a month of the proleptic Gregorian calendar. -/
def daysInMonth (year month : Nat) : Nat :=
  if month = 2 then
    if year % 4 = 0 ∧ (year % 100 ≠ 0 ∨ year % 400 = 0) then 29 else 28
  else if month = 4 ∨ month = 6 ∨ month = 9 ∨ month = 11 then 30
  else 31

/-- Parse the optional time-of-day part `(T| )HH:MM[:SS[.f{1,6}]]` plus
offset. -/
def parseIsoTime : List Char → Option (Nat × Nat × Nat × Nat × Option Int)
  | [] => some (0, 0, 0, 0, none)
  | sep :: cs =>
    if sep = 'T' ∨ sep = ' ' then
      match takeDigitsN 2 cs with
      | none => none
      | some (hh, r1) =>
        match r1 with
        | ':' :: r2 =>
          match takeDigitsN 2 r2 with
          | none => none
          | some (mi, r3) =>
            let next : Option (Nat × List Char) := match r3 with
              | ':' :: r4 =>
                match takeDigitsN 2 r4 with
                | none => none
                | some (ss, r5) => some (ss, r5)
              | _ => some (0, r3)
            match next with
            | none => none
            | some (ss, r5) =>
              match parseIsoFraction r5 with
              | none => none
              | some (us, r6) =>
                match parseIsoOffset r6 with
                | none => none
                | some (off, r7) =>
                  if r7 = [] ∧ hh ≤ 23 ∧ mi ≤ 59 ∧ ss ≤ 59 then
                    some (hh, mi, ss, us, off)
                  else none
        | _ => none
    else none

/-- A model of CPython's `datetime.fromisoformat` restricted to the
extended format `YYYY-MM-DD[(T| )HH:MM[:SS[.f{1,6}]][±HH[:]MM]]`, the
shapes the Jira adapter can meet after the `Z` substitution; anything
else raises `ValueError`. -/
def fromisoformat (s : String) : Except PyErr PyDateTime :=
  match takeDigitsN 4 s.data with
  | none => .error .valueError
  | some (y, r1) =>
    match r1 with
    | '-' :: r2 =>
      match takeDigitsN 2 r2 with
      | none => .error .valueError
      | some (mo, r3) =>
        match r3 with
        | '-' :: r4 =>
          match takeDigitsN 2 r4 with
          | none => .error .valueError
          | some (d, r5) =>
            if 1 ≤ y ∧ 1 ≤ mo ∧ mo ≤ 12 ∧ 1 ≤ d ∧ d ≤ daysInMonth y mo then
              match parseIsoTime r5 with
              | none => .error .valueError
              | some (hh, mi, ss, us, off) =>
                .ok { year := y, month := mo, day := d, hour := hh,
                      minute := mi, second := ss, microsecond := us,
                      tzoffsetMinutes := off }
            else .error .valueError
        | _ => .error .valueError
    | _ => .error .valueError

/-- `JiraDataSource._parse_date` (jira_source.py lines 228-236): return
`None` for falsy input, otherwise try
`datetime.fromisoformat(date_str.replace("Z", "+00:00"))`, catching only
`ValueError` and `AttributeError` (returning `None`); any other
exception, such as the `TypeError` from `datetime.replace`, propagates. -/
def parse_date (v : PyVal) : Except PyErr (Option PyDateTime) :=
  if pyTruthy v = false then .ok none
  else
    match pyReplace v "Z" "+00:00" with
    | .ok s =>
      match fromisoformat s with
      | .ok d => .ok (some d)
      | .error .valueError => .ok none
      | .error .attributeError => .ok none
      | .error e => .error e
    | .error .valueError => .ok none
    | .error .attributeError => .ok none
    | .error e => .error e

/-! ## Theorems -/

/-- Claim C3: calling `sync_from_source` (or the adapter's
`fetch_trackers`) with an empty `project_keys` list raises the
configuration `ValueError` immediately, before any record is fetched and
before any store row is created or modified; the caller's store is left
untouched. -/
theorem claim_C3_empty_project_keys (proc : ProcFn) (items stream : List FetchItem)
    (store : Store) (conn_ok : Bool) (now : Nat) (st : Stats) (so : Store) :
    sync_from_source proc items [] store =
        .error "project_keys is required - cannot sync without specifying projects"
    ∧ fetch_trackers_items [] stream =
        [FetchItem.fetchError "project_keys is required - cannot fetch without specifying projects"]
    ∧ syncLoop proc (fetch_trackers_items [] stream) st so =
        .error "project_keys is required - cannot fetch without specifying projects"
    ∧ sync_jira conn_ok items [] store now = store :=
  ⟨rfl, rfl, rfl, rfl⟩

/-- Claim C4: syncing a single record with
`cve_ids = ["CVE-2024-0001", "CVE-2024-0002"]` for the unknown project
key "ACME" into an empty store creates one Project "ACME" (name = key,
no team), two CVEs, and one Tracker linked to the *last* CVE id
("CVE-2024-0002"), with stats `trackers_created = 1, cves_created = 2,
projects_created = 1` and no errors. -/
theorem claim_C4_single_record_creation :
    sync_from_source (procTrackerE 5)
        [FetchItem.record { source_key := "ACME-1", source_type := "jira",
                            project_key := "ACME",
                            cve_ids := ["CVE-2024-0001", "CVE-2024-0002"] }]
        ["ACME"] {} =
      .ok ({ trackers_created := 1, trackers_updated := 0, cves_created := 2,
             projects_created := 1, errors := [] },
           { teams := [],
             projects := [{ id := 1, key := "ACME", name := "ACME", team_id := none }],
             cves := [{ id := 1, cve_id := "CVE-2024-0001" },
                      { id := 2, cve_id := "CVE-2024-0002" }],
             trackers := [{ id := 1, jira_key := "ACME-1", project_id := some 1,
                            cve_id := some 2, last_synced_at := some 5 }],
             util := [], nextProjectId := 2, nextCveId := 3, nextTrackerId := 2 })
    ∧ ∃ t ∈ [({ id := 1, jira_key := "ACME-1", project_id := some 1,
                cve_id := some 2, last_synced_at := some 5 } : TrackerRow)],
      ∃ c ∈ [({ id := 1, cve_id := "CVE-2024-0001" } : CVERow),
             ({ id := 2, cve_id := "CVE-2024-0002" } : CVERow)],
        t.cve_id = some c.id ∧ c.cve_id = "CVE-2024-0002" := by
  refine ⟨rfl, ?_⟩
  decide

/-- Claim C7: a tracker is open exactly when its status is absent or its
lower-cased status is not one of "done", "closed", "resolved",
"cancelled". -/
theorem claim_C7_is_open_iff (t : TrackerRow) :
    is_open t = true ↔
      t.status = none ∨ ∃ s, t.status = some s ∧ strLower s ∉ closed_statuses := by
  cases h : t.status with
  | none => simp [is_open, h]
  | some s =>
    simp only [is_open, h, Option.some.injEq, reduceCtorEq, false_or]
    by_cases he : s.data.isEmpty
    · have hs : s = "" := by
        obtain ⟨l⟩ := s
        simp only [List.isEmpty_iff] at he
        subst he
        rfl
      subst hs
      simpa using by decide
    · simp only [he, if_false, Bool.not_eq_true', Bool.not_eq_false]
      constructor
      · intro hc
        exact ⟨s, rfl, by simpa using hc⟩
      · rintro ⟨s', hs', hmem⟩
        cases hs'
        simpa using hmem

/-- Claim C10 counterexample: `_parse_date` is not total on non-string
inputs — a `datetime` argument (an object whose `replace` method exists
but rejects two positional string arguments) raises an uncaught
`TypeError` instead of returning `None`. -/
theorem claim_C10_counterexample :
    parse_date (PyVal.pyDatetime
      { year := 2024, month := 1, day := 1 }) = .error PyErr.typeError := rfl

/-- Every failure of the embedded `datetime.fromisoformat` is a
`ValueError`. -/
theorem fromisoformat_error_eq (s : String) (e : PyErr)
    (h : fromisoformat s = .error e) : e = PyErr.valueError := by
  unfold fromisoformat at h
  repeat' split at h
  all_goals first
    | (injection h with h'; exact h'.symm)
    | cases h

/-- Claim C10 (amended): `_parse_date` returns `None` for null/falsy
input, the parsed datetime for a well-formed ISO string (with a trailing
"Z" substituted to "+00:00" first), `None` for a malformed string and
for a non-string input lacking a `replace` attribute; but a non-string
input whose `replace` method rejects the positional string arguments —
such as a `datetime` — raises an uncaught `TypeError`. -/
theorem claim_C10_parse_date_amended (v : PyVal) :
    parse_date v =
      match v with
      | .pyNone => .ok none
      | .pyInt _ => .ok none
      | .pyStr s => .ok (fromisoformat (pyStrReplace s "Z" "+00:00")).toOption
      | .pyDatetime _ => .error PyErr.typeError := by
  cases v with
  | pyNone => rfl
  | pyDatetime d => rfl
  | pyInt n =>
    by_cases h : n = 0
    · subst h; rfl
    · simp only [parse_date, pyTruthy, pyReplace]
      rw [if_neg (by simpa using h)]
  | pyStr s =>
    by_cases he : s.data.isEmpty
    · have hs : s = "" := by
        obtain ⟨l⟩ := s
        simp only [List.isEmpty_iff] at he
        subst he
        rfl
      subst hs; rfl
    · simp only [parse_date, pyTruthy, pyReplace, he, Bool.not_false]
      rw [if_neg (by simp)]
      cases hfi : fromisoformat (pyStrReplace s "Z" "+00:00") with
      | ok d => simp [Except.toOption]
      | error e =>
        have := fromisoformat_error_eq _ _ hfi
        subst this
        simp [Except.toOption]

/-- `spanDigits` splits its input: the two components concatenate back. -/
theorem spanDigits_append : ∀ l : List Char, (spanDigits l).1 ++ (spanDigits l).2 = l := by
  intro l
  induction l with
  | nil => rfl
  | cons c cs ih =>
    by_cases hc : c.isDigit
    · simp [spanDigits, hc, ih]
    · simp [spanDigits, hc]

/-- Every character of `spanDigits`' first component is a digit. -/
theorem spanDigits_digits : ∀ (l : List Char), ∀ c ∈ (spanDigits l).1, c.isDigit := by
  intro l
  induction l with
  | nil => intro c hc; cases hc
  | cons c cs ih =>
    intro d hd
    by_cases hc : c.isDigit
    · simp only [spanDigits, hc, if_true, List.mem_cons] at hd
      rcases hd with rfl | hd
      · exact hc
      · exact ih d hd
    · simp [spanDigits, hc] at hd

/-- A successful `matchCVE` yields a match of the pattern's shape, and
consumes a prefix of its input. -/
theorem matchCVE_some : ∀ (l m r : List Char), matchCVE l = some (m, r) →
    CVEShape m ∧ l = m ++ r := by
  intro l m r h
  unfold matchCVE at h
  split at h
  case h_2 => cases h
  case h_1 c1 c2 c3 rest =>
    split at h
    case isFalse => cases h
    case isTrue hg =>
      obtain ⟨hg1, hg2, hg3⟩ := hg
      split at h
      case isFalse => cases h
      case isTrue hd4 =>
        split at h
        case h_2 => cases h
        case h_1 rest3 heq2 =>
          split at h
          case isFalse => cases h
          case isTrue hd2 =>
            injection h with h'
            injection h' with hm hr
            subst hm
            subst hr
            constructor
            · exact ⟨c1, c2, c3, (spanDigits rest).1, (spanDigits rest3).1,
                rfl, hg1, hg2, hg3, hd4, spanDigits_digits rest, hd2,
                spanDigits_digits rest3⟩
            · have h1 := spanDigits_append rest
              have h2 := spanDigits_append rest3
              simp only [List.cons_append, List.append_assoc, List.cons.injEq,
                true_and]
              rw [h2, ← heq2, h1]

/-- Everything the findall scan emits has the pattern's shape and occurs
inside the input. -/
theorem findallCVEAux_sound : ∀ (fuel : Nat) (cs m : List Char),
    m ∈ findallCVEAux fuel cs → CVEShape m ∧ m <:+: cs := by
  intro fuel
  induction fuel with
  | zero => intro cs m h; cases h
  | succ f ih =>
    intro cs m h
    cases cs with
    | nil => cases h
    | cons c cs' =>
      rw [findallCVEAux] at h
      cases hm : matchCVE (c :: cs') with
      | some pr =>
        obtain ⟨m0, r⟩ := pr
        rw [hm] at h
        obtain ⟨hsh, heq⟩ := matchCVE_some _ _ _ hm
        rcases List.mem_cons.mp h with rfl | hmem
        · exact ⟨hsh, ⟨[], r, by simp [heq.symm]⟩⟩
        · obtain ⟨hsh', hinf⟩ := ih r m hmem
          exact ⟨hsh', hinf.trans ⟨m0, [], by simp [heq.symm]⟩⟩
      | none =>
        rw [hm] at h
        obtain ⟨hsh, hinf⟩ := ih cs' m h
        exact ⟨hsh, hinf.trans (List.suffix_cons c cs').isInfix⟩

/-- Claim C8 counterexample: the extraction deduplicates raw matches
*before* upper-casing, so a summary containing the same CVE id in two
spellings yields two equal ids after upper-casing — the result is not
duplicate-free. -/
theorem claim_C8_counterexample :
    extract_cve_ids "CVE-2024-0001 cve-2024-0001" =
      ["CVE-2024-0001", "CVE-2024-0001"]
    ∧ ¬ (extract_cve_ids "CVE-2024-0001 cve-2024-0001").Nodup := by
  constructor
  · rfl
  · decide

/-- Claim C8 (amended): every id returned by `_extract_cve_ids` is the
upper-casing of a substring of the summary that matches the pattern
`CVE-` + 4 digits + `-` + 4-or-more digits case-insensitively, taken
from the deduplicated raw match list; the raw matches are deduplicated
before upper-casing, so two spellings differing only in case survive as
equal upper-cased ids. -/
theorem claim_C8_extracted_ids_amended (text : String) (id : String)
    (h : id ∈ extract_cve_ids text) :
    ∃ m, m ∈ (findallCVE text.data).dedup ∧ CVEShape m ∧ m <:+: text.data ∧
      id = upperStr m := by
  unfold extract_cve_ids at h
  obtain ⟨m, hm, rfl⟩ := List.mem_map.mp h
  obtain ⟨hsh, hinf⟩ := findallCVEAux_sound _ _ _ (List.mem_dedup.mp hm)
  exact ⟨m, hm, hsh, hinf, rfl⟩

/-- Witness for the amended C8 theorem at a concrete summary. -/
theorem claim_C8_witness :
    ("CVE-2024-0001" ∈ extract_cve_ids "see CVE-2024-0001") ∧
    ∃ m, m ∈ (findallCVE "see CVE-2024-0001".data).dedup ∧ CVEShape m ∧
      m <:+: "see CVE-2024-0001".data ∧ "CVE-2024-0001" = upperStr m :=
  ⟨by decide, claim_C8_extracted_ids_amended "see CVE-2024-0001" "CVE-2024-0001" (by decide)⟩

/-- An empty severity string is unranked. -/
theorem severity_rank_of_empty (s : String) (h : s.data.isEmpty = true) :
    severity_rank s = 0 := by
  obtain ⟨l⟩ := s
  simp only [List.isEmpty_iff] at h
  subst h
  decide

/-- A tracker with severity `some s` contributes the rank of `s`. -/
theorem trackRank_some (t : TrackerRow) (s : String) (h : t.severity = some s) :
    trackRank t = severity_rank s := by
  simp [trackRank, h]

/-- A tracker without severity contributes rank 0. -/
theorem trackRank_none (t : TrackerRow) (h : t.severity = none) :
    trackRank t = 0 := by
  simp [trackRank, h]

/-- `maxRank` unfolds on cons. -/
theorem maxRank_cons (t : TrackerRow) (ts : List TrackerRow) :
    maxRank (t :: ts) = max (trackRank t) (maxRank ts) := rfl

/-- `maxRank` vanishes exactly when every tracker is unranked. -/
theorem maxRank_eq_zero_iff (ts : List TrackerRow) :
    maxRank ts = 0 ↔ ∀ t ∈ ts, trackRank t = 0 := by
  induction ts with
  | nil => simp [maxRank]
  | cons t ts ih => simp [maxRank_cons, Nat.max_eq_zero_iff, ih]

/-- Once the scan holds a candidate, it never returns `None`. -/
theorem highestSeverityGo_some_ne_none :
    ∀ (ts : List TrackerRow) (s : String) (hr : Nat),
      highestSeverityGo ts (some s) hr ≠ none := by
  intro ts
  induction ts with
  | nil => intro s hr h; cases h
  | cons t ts ih =>
    intro s hr
    cases hsev : t.severity with
    | none => simpa [highestSeverityGo, hsev] using ih s hr
    | some s' =>
      by_cases he : s'.data.isEmpty
      · simpa [highestSeverityGo, hsev, he] using ih s hr
      · by_cases hlt : hr < severity_rank s'
        · simpa [highestSeverityGo, hsev, he, hlt] using ih s' (severity_rank s')
        · simpa [highestSeverityGo, hsev, he, hlt] using ih s hr

/-- Trackers at or below the running rank never change the scan state. -/
theorem highestSeverityGo_all_le :
    ∀ (ts : List TrackerRow) (h : Option String) (hr : Nat),
      (∀ t ∈ ts, trackRank t ≤ hr) → highestSeverityGo ts h hr = h := by
  intro ts
  induction ts with
  | nil => intro h hr _; rfl
  | cons t ts ih =>
    intro h hr hle
    have htail : ∀ t' ∈ ts, trackRank t' ≤ hr :=
      fun t' ht' => hle t' (List.mem_cons_of_mem t ht')
    cases hsev : t.severity with
    | none => simpa [highestSeverityGo, hsev] using ih h hr htail
    | some s' =>
      by_cases he : s'.data.isEmpty
      · simpa [highestSeverityGo, hsev, he] using ih h hr htail
      · have hrk : severity_rank s' ≤ hr := by
          have := hle t (List.mem_cons_self t ts)
          rwa [trackRank_some t s' hsev] at this
        have hlt : ¬ hr < severity_rank s' := Nat.not_lt.mpr hrk
        simpa [highestSeverityGo, hsev, he, hlt] using ih h hr htail

/-- If the scan comes back empty, every tracker was at or below the
starting rank. -/
theorem highestSeverityGo_none_all_le :
    ∀ (ts : List TrackerRow) (hr : Nat),
      highestSeverityGo ts none hr = none → ∀ t ∈ ts, trackRank t ≤ hr := by
  intro ts
  induction ts with
  | nil => intro hr _ t ht; cases ht
  | cons t ts ih =>
    intro hr hnone t' ht'
    cases hsev : t.severity with
    | none =>
      rw [highestSeverityGo, hsev] at hnone
      rcases List.mem_cons.mp ht' with rfl | ht''
      · simp [trackRank_none t' hsev]
      · exact ih hr hnone t' ht''
    | some s' =>
      by_cases he : s'.data.isEmpty
      · rw [highestSeverityGo, hsev] at hnone
        simp only [he, if_true] at hnone
        rcases List.mem_cons.mp ht' with rfl | ht''
        · rw [trackRank_some t' s' hsev, severity_rank_of_empty s' he]
          exact Nat.zero_le hr
        · exact ih hr hnone t' ht''
      · by_cases hlt : hr < severity_rank s'
        · exfalso
          rw [highestSeverityGo, hsev] at hnone
          simp only [he, if_false, hlt, if_true] at hnone
          exact highestSeverityGo_some_ne_none ts s' (severity_rank s') hnone
        · rw [highestSeverityGo, hsev] at hnone
          simp only [he, if_false, hlt] at hnone
          rcases List.mem_cons.mp ht' with rfl | ht''
          · rw [trackRank_some t' s' hsev]
            exact Nat.not_lt.mp hlt
          · exact ih hr hnone t' ht''

/-- Full characterisation of a successful scan: the winner comes from
the starting candidate or from the list, its rank is the maximum of the
starting rank and the list's ranks, and it is strictly ranked. -/
theorem highestSeverityGo_some_spec :
    ∀ (ts : List TrackerRow) (h : Option String) (hr : Nat),
      (h = none → hr = 0) →
      (∀ s0, h = some s0 → severity_rank s0 = hr ∧ 0 < hr) →
      ∀ s, highestSeverityGo ts h hr = some s →
        (h = some s ∨ ∃ t ∈ ts, t.severity = some s) ∧
          severity_rank s = max hr (maxRank ts) ∧ 0 < severity_rank s := by
  intro ts
  induction ts with
  | nil =>
    intro h hr _ inv2 s hs
    rcases (inv2 s hs) with ⟨hrk, hpos⟩
    refine ⟨Or.inl hs, ?_, by omega⟩
    simp [maxRank, hrk]
  | cons t ts ih =>
    intro h hr inv1 inv2 s hs
    cases hsev : t.severity with
    | none =>
      rw [highestSeverityGo, hsev] at hs
      obtain ⟨hprov, hrk, hpos⟩ := ih h hr inv1 inv2 s hs
      refine ⟨?_, ?_, hpos⟩
      · rcases hprov with h' | ⟨t', ht', hsev'⟩
        · exact Or.inl h'
        · exact Or.inr ⟨t', List.mem_cons_of_mem t ht', hsev'⟩
      · rw [maxRank_cons, trackRank_none t hsev, hrk]
        omega
    | some s' =>
      by_cases he : s'.data.isEmpty
      · rw [highestSeverityGo, hsev] at hs
        simp only [he, if_true] at hs
        obtain ⟨hprov, hrk, hpos⟩ := ih h hr inv1 inv2 s hs
        refine ⟨?_, ?_, hpos⟩
        · rcases hprov with h' | ⟨t', ht', hsev'⟩
          · exact Or.inl h'
          · exact Or.inr ⟨t', List.mem_cons_of_mem t ht', hsev'⟩
        · rw [maxRank_cons, trackRank_some t s' hsev, severity_rank_of_empty s' he, hrk]
          omega
      · by_cases hlt : hr < severity_rank s'
        · rw [highestSeverityGo, hsev] at hs
          simp only [he, if_false, hlt, if_true] at hs
          obtain ⟨hprov, hrk, hpos⟩ := ih (some s') (severity_rank s')
            (by intro h'; cases h')
            (by intro s0 h0; injection h0 with h0; subst h0; exact ⟨rfl, by omega⟩)
            s hs
          refine ⟨?_, ?_, hpos⟩
          · rcases hprov with h' | ⟨t', ht', hsev'⟩
            · injection h' with h'
              subst h'
              exact Or.inr ⟨t, List.mem_cons_self t ts, hsev⟩
            · exact Or.inr ⟨t', List.mem_cons_of_mem t ht', hsev'⟩
          · rw [maxRank_cons, trackRank_some t s' hsev, hrk]
            omega
        · rw [highestSeverityGo, hsev] at hs
          simp only [he, if_false, hlt] at hs
          obtain ⟨hprov, hrk, hpos⟩ := ih h hr inv1 inv2 s hs
          refine ⟨?_, ?_, hpos⟩
          · rcases hprov with h' | ⟨t', ht', hsev'⟩
            · exact Or.inl h'
            · exact Or.inr ⟨t', List.mem_cons_of_mem t ht', hsev'⟩
          · rw [maxRank_cons, trackRank_some t s' hsev, hrk]
            omega

/-- Claim C9: `_get_highest_severity` returns `None` exactly when no
tracker carries a ranked severity; otherwise it returns the severity of
some tracker whose rank (under critical > important > moderate > low,
compared case-insensitively) is the maximum rank over the list, with
unranked or absent severities ignored. -/
theorem claim_C9_highest_severity (ts : List TrackerRow) :
    (get_highest_severity ts = none ↔ maxRank ts = 0) ∧
    ∀ s, get_highest_severity ts = some s →
      (∃ t ∈ ts, t.severity = some s) ∧ severity_rank s = maxRank ts ∧
        0 < severity_rank s := by
  constructor
  · constructor
    · intro h
      exact (maxRank_eq_zero_iff ts).mpr
        (fun t ht => Nat.le_zero.mp (highestSeverityGo_none_all_le ts 0 h t ht))
    · intro h
      exact highestSeverityGo_all_le ts none 0
        (fun t ht => by rw [(maxRank_eq_zero_iff ts).mp h t ht])
  · intro s hs
    obtain ⟨hprov, hrk, hpos⟩ := highestSeverityGo_some_spec ts none 0
      (fun _ => rfl) (by intro s0 h0; cases h0) s hs
    rcases hprov with h' | h'
    · cases h'
    · exact ⟨h', by simpa using hrk, hpos⟩

/-- A concrete severity list for the C9 witness: mixed casing and an
unranked value. -/
def sevExample : List TrackerRow :=
  [{ id := 1, jira_key := "A-1", severity := some "Moderate" },
   { id := 2, jira_key := "A-2", severity := some "CRITICAL" },
   { id := 3, jira_key := "A-3", severity := some "weird" }]

/-- Witness for claim C9 at a concrete tracker list. -/
theorem claim_C9_witness :
    (get_highest_severity sevExample = none ↔ maxRank sevExample = 0) ∧
    ((∃ t ∈ sevExample, t.severity = some "CRITICAL") ∧
      severity_rank "CRITICAL" = maxRank sevExample ∧
        0 < severity_rank "CRITICAL") :=
  ⟨(claim_C9_highest_severity sevExample).1,
   (claim_C9_highest_severity sevExample).2 "CRITICAL" (by decide)⟩

/-! ## Sync-loop failure semantics (claims C1, C5) -/

/-- A processor that never mutates the error list of the statistics
dictionary — `_process_tracker` only touches the counters, never
`stats["errors"]`. -/
def ErrorsIntact (proc : ProcFn) : Prop :=
  ∀ r st so, match proc r st so with
    | .ok (st2, _) => st2.errors = st.errors
    | .error (_, st2, _) => st2.errors = st.errors

/-- A record stream that never raises. -/
def allRecords (items : List FetchItem) : Prop :=
  ∀ i ∈ items, ∃ r, i = FetchItem.record r

/-- An exception of the record stream propagates out of the record loop
regardless of how many records were already processed and of what the
per-record processor did. -/
theorem syncLoop_fetchError (proc : ProcFn) (e : String) (rest : List FetchItem) :
    ∀ (rs : List RawTracker) (st : Stats) (so : Store),
      syncLoop proc (rs.map FetchItem.record ++ FetchItem.fetchError e :: rest) st so =
        .error e := by
  intro rs
  induction rs with
  | nil => intro st so; rfl
  | cons r rs ih =>
    intro st so
    simp only [List.map_cons, List.cons_append, syncLoop]
    cases proc r st so with
    | ok out => exact ih out.1 out.2
    | error out => exact ih _ out.2.2

/-- A record loop over a stream that never raises always reaches the
commit point. -/
theorem syncLoop_ok_of_allRecords (proc : ProcFn) :
    ∀ (items : List FetchItem) (st : Stats) (so : Store), allRecords items →
      ∃ out, syncLoop proc items st so = .ok out := by
  intro items
  induction items with
  | nil => intro st so _; exact ⟨(st, so), rfl⟩
  | cons i rest ih =>
    intro st so hall
    obtain ⟨r, rfl⟩ := hall i (List.mem_cons_self i rest)
    have htail : allRecords rest := fun j hj => hall j (List.mem_cons_of_mem _ hj)
    rw [syncLoop]
    cases proc r st so with
    | ok out => exact ih out.1 out.2 htail
    | error out => exact ih _ out.2.2 htail

/-- Under an error-list-preserving processor, the record loop only ever
appends to the error list. -/
theorem syncLoop_errors_prefix (proc : ProcFn) (hintact : ErrorsIntact proc) :
    ∀ (items : List FetchItem) (st : Stats) (so : Store) (st' : Stats) (so' : Store),
      syncLoop proc items st so = .ok (st', so') →
      ∃ l, st'.errors = st.errors ++ l := by
  intro items
  induction items with
  | nil =>
    intro st so st' so' h
    injection h with h'
    injection h' with h1 h2
    subst h1
    exact ⟨[], by simp⟩
  | cons i rest ih =>
    intro st so st' so' h
    cases i with
    | fetchError e => cases h
    | record r =>
      rw [syncLoop] at h
      have hint := hintact r st so
      cases hp : proc r st so with
      | ok out =>
        rw [hp] at h hint
        obtain ⟨l, hl⟩ := ih out.1 out.2 st' so' h
        exact ⟨l, by rw [hl, hint]⟩
      | error out =>
        rw [hp] at h hint
        obtain ⟨l, hl⟩ := ih _ out.2.2 st' so' h
        refine ⟨(r.source_key ++ ": " ++ out.1) :: l, ?_⟩
        rw [hl]
        simp [hint]

/-- Claim C1: when the adapter's record stream raises mid-stream (after
any number of successfully yielded records), `sync_from_source` aborts
before the commit point and the exception propagates to the caller;
the caller's committed store is unchanged and the persisted watermark
(`last_sync_datetime`) is untouched, because the sync view only advances
it after `sync_from_source` returns without raising. -/
theorem claim_C1_adapter_failure_atomic (proc : ProcFn) (rs : List RawTracker)
    (e : String) (rest : List FetchItem) (keys : List String) (store : Store)
    (conn_ok : Bool) (now : Nat) (hk : keys ≠ []) :
    sync_from_source proc (rs.map FetchItem.record ++ FetchItem.fetchError e :: rest)
        keys store = .error e
    ∧ sync_jira conn_ok (rs.map FetchItem.record ++ FetchItem.fetchError e :: rest)
        keys store now = store
    ∧ get_last_sync (sync_jira conn_ok
        (rs.map FetchItem.record ++ FetchItem.fetchError e :: rest) keys store now) =
      get_last_sync store := by
  have hne : keys.isEmpty = false := by
    cases keys with
    | nil => exact absurd rfl hk
    | cons a l => rfl
  have h1 : ∀ (proc' : ProcFn),
      sync_from_source proc' (rs.map FetchItem.record ++ FetchItem.fetchError e :: rest)
        keys store = .error e := by
    intro proc'
    rw [sync_from_source, hne]
    simp only [Bool.false_eq_true, if_false]
    exact syncLoop_fetchError proc' e rest rs initStats store
  have h2 : sync_jira conn_ok (rs.map FetchItem.record ++ FetchItem.fetchError e :: rest)
      keys store now = store := by
    rw [sync_jira, hne]
    simp only [Bool.false_eq_true, if_false]
    cases conn_ok with
    | false => rfl
    | true =>
      rw [if_neg (by simp), h1 (procTrackerE now)]
  exact ⟨h1 proc, h2, by rw [h2]⟩

/-- Witness for claim C1: a concrete run whose second stream event is a
connection error. -/
theorem claim_C1_witness :
    sync_from_source (procTrackerE 0)
        ([{ source_key := "A-1", source_type := "jira", project_key := "A" }].map
            FetchItem.record ++ FetchItem.fetchError "connection lost" :: [])
        ["A"] {} = .error "connection lost"
    ∧ sync_jira true
        ([{ source_key := "A-1", source_type := "jira", project_key := "A" }].map
            FetchItem.record ++ FetchItem.fetchError "connection lost" :: [])
        ["A"] {} 0 = {}
    ∧ get_last_sync (sync_jira true
        ([{ source_key := "A-1", source_type := "jira", project_key := "A" }].map
            FetchItem.record ++ FetchItem.fetchError "connection lost" :: [])
        ["A"] {} 0) = get_last_sync {} :=
  claim_C1_adapter_failure_atomic (procTrackerE 0)
    [{ source_key := "A-1", source_type := "jira", project_key := "A" }]
    "connection lost" [] ["A"] {} true 0 (by decide)

/-- Claim C5: an exception while processing a single record is caught:
the loop resumes with the remaining records after appending
`"<source_key>: <message>"` to the partially updated statistics, and a
run over a stream that raises no stream-level error still reaches the
commit point with the recorded message in its error list. -/
theorem claim_C5_record_error_caught (proc : ProcFn) (hintact : ErrorsIntact proc)
    (r : RawTracker) (rest : List RawTracker) (stats : Stats) (store : Store)
    (e : String) (st2 : Stats) (so2 : Store)
    (hfail : proc r stats store = .error (e, st2, so2)) :
    syncLoop proc (FetchItem.record r :: rest.map FetchItem.record) stats store =
      syncLoop proc (rest.map FetchItem.record)
        { st2 with errors := st2.errors ++ [r.source_key ++ ": " ++ e] } so2
    ∧ ∃ st' so',
        syncLoop proc (FetchItem.record r :: rest.map FetchItem.record) stats store =
          .ok (st', so')
        ∧ (r.source_key ++ ": " ++ e) ∈ st'.errors := by
  have hstep : syncLoop proc (FetchItem.record r :: rest.map FetchItem.record) stats store =
      syncLoop proc (rest.map FetchItem.record)
        { st2 with errors := st2.errors ++ [r.source_key ++ ": " ++ e] } so2 := by
    rw [syncLoop, hfail]
  refine ⟨hstep, ?_⟩
  obtain ⟨⟨st', so'⟩, hok⟩ := syncLoop_ok_of_allRecords proc (rest.map FetchItem.record)
    { st2 with errors := st2.errors ++ [r.source_key ++ ": " ++ e] } so2
    (fun i hi => by
      obtain ⟨x, _, rfl⟩ := List.mem_map.mp hi
      exact ⟨x, rfl⟩)
  obtain ⟨l, hl⟩ := syncLoop_errors_prefix proc hintact _ _ _ _ _ hok
  refine ⟨st', so', by rw [hstep, hok], ?_⟩
  rw [hl]
  simp

/-- The constantly failing processor used by the C5 witness. -/
def failProc : ProcFn := fun _ st so => .error ("boom", st, so)

/-- The record used by the C5 witness. -/
def c5rec : RawTracker :=
  { source_key := "P-1", source_type := "jira", project_key := "P" }

/-- Witness for claim C5 with a processor that raises on the record. -/
theorem claim_C5_witness :
    (syncLoop failProc (FetchItem.record c5rec :: List.map FetchItem.record []) initStats {} =
      syncLoop failProc (List.map FetchItem.record [])
        { initStats with errors := initStats.errors ++ [c5rec.source_key ++ ": " ++ "boom"] } {})
    ∧ ∃ st' so',
        syncLoop failProc (FetchItem.record c5rec :: List.map FetchItem.record []) initStats {} =
          .ok (st', so')
        ∧ (c5rec.source_key ++ ": " ++ "boom") ∈ st'.errors :=
  claim_C5_record_error_caught failProc (by intro r st so; rfl) c5rec [] initStats {}
    "boom" initStats {} rfl

/-! ## Affected teams (claim C6) -/

/-- Membership characterisation of `affected_teams`: a team is affected
exactly when some tracker of the CVE resolves through its project to
that team. -/
theorem mem_affected_teams (store : Store) (c : CVERow) (tm : TeamRow) :
    tm ∈ affected_teams store c ↔
      ∃ t ∈ store.trackers, t.cve_id = some c.id ∧
        ∃ p, tracker_project store t = some p ∧ project_team store p = some tm := by
  unfold affected_teams cve_trackers
  rw [List.mem_dedup, List.mem_filterMap]
  constructor
  · rintro ⟨t, ht, hbind⟩
    obtain ⟨ht1, ht2⟩ := List.mem_filter.mp ht
    obtain ⟨p, hp, htm⟩ := Option.bind_eq_some.mp hbind
    exact ⟨t, ht1, by simpa using ht2, p, hp, htm⟩
  · rintro ⟨t, ht, hcve, p, hp, htm⟩
    refine ⟨t, List.mem_filter.mpr ⟨ht, by simpa using hcve⟩, ?_⟩
    exact Option.bind_eq_some.mpr ⟨p, hp, htm⟩

/-- Claim C6: for every CVE, `affected_teams` equals the deduplicated
set of `tracker.project.team` over the CVE's trackers, computed on
demand from the entity graph: it is duplicate-free, membership is
exactly resolvability through a tracker of this CVE, and appending a
new tracker for the CVE changes the result without any write to a CVE
field (the CVE rows of the store are untouched). -/
theorem claim_C6_affected_teams_derived (store : Store) (c : CVERow) :
    ((∀ tm, tm ∈ affected_teams store c ↔
        ∃ t ∈ store.trackers, t.cve_id = some c.id ∧
          ∃ p, tracker_project store t = some p ∧ project_team store p = some tm)
      ∧ (affected_teams store c).Nodup)
    ∧ ∀ (tnew : TrackerRow) (p : ProjectRow) (tm : TeamRow),
        tnew.cve_id = some c.id →
        tracker_project { store with trackers := store.trackers ++ [tnew] } tnew = some p →
        project_team { store with trackers := store.trackers ++ [tnew] } p = some tm →
        tm ∈ affected_teams { store with trackers := store.trackers ++ [tnew] } c
        ∧ ({ store with trackers := store.trackers ++ [tnew] } : Store).cves = store.cves := by
  refine ⟨⟨mem_affected_teams store c, List.nodup_dedup _⟩, ?_⟩
  intro tnew p tm hcve hproj hteam
  refine ⟨?_, rfl⟩
  exact (mem_affected_teams _ c tm).mpr
    ⟨tnew, by simp, hcve, p, hproj, hteam⟩

/-- The store used by the C6 witness: one team, one project owned by
it, one CVE, and no trackers yet. -/
def c6store : Store :=
  { teams := [{ id := 1, name := "SecTeam" }],
    projects := [{ id := 1, key := "ACME", name := "ACME", team_id := some 1 }],
    cves := [{ id := 1, cve_id := "CVE-2024-0001" }],
    trackers := [] }

/-- The tracker appended by the C6 witness. -/
def c6tracker : TrackerRow :=
  { id := 1, jira_key := "ACME-1", project_id := some 1, cve_id := some 1 }

/-- Witness for claim C6: appending a tracker for the CVE makes its
project's team affected, with the CVE rows untouched. -/
theorem claim_C6_witness :
    ({ id := 1, name := "SecTeam" } : TeamRow) ∈
      affected_teams { c6store with trackers := c6store.trackers ++ [c6tracker] }
        { id := 1, cve_id := "CVE-2024-0001" }
    ∧ ({ c6store with trackers := c6store.trackers ++ [c6tracker] } : Store).cves =
        c6store.cves :=
  (claim_C6_affected_teams_derived c6store { id := 1, cve_id := "CVE-2024-0001" }).2
    c6tracker { id := 1, key := "ACME", name := "ACME", team_id := some 1 }
    { id := 1, name := "SecTeam" } (by decide) (by decide) (by decide)

/-! ## Idempotence of the upsert (claim C2) -/

/-- The store has a project row with this key. -/
def hasProjKey (store : Store) (k : String) : Prop :=
  k ∈ store.projects.map (·.key)

/-- The store has a CVE row with this CVE id. -/
def hasCveId (store : Store) (cid : String) : Prop :=
  cid ∈ store.cves.map (·.cve_id)

/-- The store has a tracker row with this source key. -/
def hasTrkKey (store : Store) (k : String) : Prop :=
  k ∈ store.trackers.map (·.jira_key)

/-- The store already holds everything a record references: its project
key, all its CVE ids, and its tracker key. -/
def containsRecord (store : Store) (r : RawTracker) : Prop :=
  hasProjKey store r.project_key ∧ (∀ cid ∈ r.cve_ids, hasCveId store cid)
    ∧ hasTrkKey store r.source_key

/-- A failed keyed lookup means the key is absent. -/
theorem find?_none_not_mem {α : Type} (f : α → String) (k : String) (l : List α)
    (h : l.find? (fun x => f x == k) = none) : k ∉ l.map f := by
  intro hmem
  obtain ⟨x, hx, rfl⟩ := List.mem_map.mp hmem
  have := List.find?_eq_none.mp h x hx
  simp at this

/-- A successful keyed lookup returns a row of the list with the key. -/
theorem find?_some_mem {α : Type} (f : α → String) (k : String) (l : List α)
    (x : α) (h : l.find? (fun y => f y == k) = some x) : f x = k ∧ x ∈ l :=
  ⟨by simpa using List.find?_some h, List.mem_of_find?_eq_some h⟩

/-- `updateFirst` preserves any projection the update function
preserves. -/
theorem map_updateFirst {α β : Type} (g : α → β) (p : α → Bool) (f : α → α)
    (h : ∀ x, g (f x) = g x) : ∀ l : List α, (updateFirst p f l).map g = l.map g := by
  intro l
  induction l with
  | nil => rfl
  | cons x xs ih =>
    by_cases hp : p x
    · simp [updateFirst, hp, h]
    · simp [updateFirst, hp, ih]

/-- The CVE loop only appends to the `cves` table. -/
theorem processCves_cves : ∀ (cids : List String) (stats : Stats) (store : Store)
    (cve : Option CVERow),
    ∃ l, (processCves stats store cve cids).2.2.cves = store.cves ++ l := by
  intro cids
  induction cids with
  | nil => intro stats store cve; exact ⟨[], by simp [processCves]⟩
  | cons cid rest ih =>
    intro stats store cve
    rw [processCves]
    cases hf : store.cves.find? (fun c => c.cve_id == cid) with
    | some c0 => exact ih stats store (some c0)
    | none =>
      obtain ⟨l, hl⟩ := ih { stats with cves_created := stats.cves_created + 1 }
        { store with cves := store.cves ++ [{ id := store.nextCveId, cve_id := cid }],
                     nextCveId := store.nextCveId + 1 }
        (some { id := store.nextCveId, cve_id := cid })
      exact ⟨{ id := store.nextCveId, cve_id := cid } :: l, by
        rw [hl]; simp⟩

/-- The CVE loop leaves the `projects` table alone. -/
theorem processCves_projects : ∀ (cids : List String) (stats : Stats) (store : Store)
    (cve : Option CVERow),
    (processCves stats store cve cids).2.2.projects = store.projects := by
  intro cids
  induction cids with
  | nil => intro stats store cve; rfl
  | cons cid rest ih =>
    intro stats store cve
    rw [processCves]
    cases hf : store.cves.find? (fun c => c.cve_id == cid) with
    | some c0 => exact ih stats store (some c0)
    | none => exact ih _ _ _

/-- The CVE loop leaves the `trackers` table alone. -/
theorem processCves_trackers : ∀ (cids : List String) (stats : Stats) (store : Store)
    (cve : Option CVERow),
    (processCves stats store cve cids).2.2.trackers = store.trackers := by
  intro cids
  induction cids with
  | nil => intro stats store cve; rfl
  | cons cid rest ih =>
    intro stats store cve
    rw [processCves]
    cases hf : store.cves.find? (fun c => c.cve_id == cid) with
    | some c0 => exact ih stats store (some c0)
    | none => exact ih _ _ _

/-- The CVE loop touches only the `cves_created` counter of the
statistics. -/
theorem processCves_stats : ∀ (cids : List String) (stats : Stats) (store : Store)
    (cve : Option CVERow),
    (processCves stats store cve cids).2.1.trackers_created = stats.trackers_created
    ∧ (processCves stats store cve cids).2.1.trackers_updated = stats.trackers_updated
    ∧ (processCves stats store cve cids).2.1.projects_created = stats.projects_created
    ∧ (processCves stats store cve cids).2.1.errors = stats.errors := by
  intro cids
  induction cids with
  | nil => intro stats store cve; exact ⟨rfl, rfl, rfl, rfl⟩
  | cons cid rest ih =>
    intro stats store cve
    rw [processCves]
    cases hf : store.cves.find? (fun c => c.cve_id == cid) with
    | some c0 => exact ih stats store (some c0)
    | none => exact ih _ _ _

/-- When every CVE id is already present, the CVE loop changes neither
the statistics nor the store. -/
theorem processCves_found : ∀ (cids : List String) (stats : Stats) (store : Store)
    (cve : Option CVERow), (∀ cid ∈ cids, hasCveId store cid) →
    ∃ cv, processCves stats store cve cids = (cv, stats, store) := by
  intro cids
  induction cids with
  | nil => intro stats store cve _; exact ⟨cve, rfl⟩
  | cons cid rest ih =>
    intro stats store cve hall
    rw [processCves]
    cases hf : store.cves.find? (fun c => c.cve_id == cid) with
    | some c0 => exact ih stats store (some c0) (fun x hx => hall x (List.mem_cons_of_mem _ hx))
    | none =>
      have hnot := find?_none_not_mem (fun c : CVERow => c.cve_id) cid store.cves hf
      exact absurd (hall cid (List.mem_cons_self cid rest)) hnot

/-- After the CVE loop, every processed CVE id is present. -/
theorem processCves_has : ∀ (cids : List String) (stats : Stats) (store : Store)
    (cve : Option CVERow),
    ∀ cid ∈ cids, hasCveId (processCves stats store cve cids).2.2 cid := by
  intro cids
  induction cids with
  | nil => intro stats store cve cid hcid; cases hcid
  | cons cid0 rest ih =>
    intro stats store cve cid hcid
    rw [processCves]
    cases hf : store.cves.find? (fun c => c.cve_id == cid0) with
    | some c0 =>
      rcases List.mem_cons.mp hcid with rfl | hcid'
      · obtain ⟨hkey, hmem⟩ := find?_some_mem (·.cve_id) cid store.cves c0 hf
        obtain ⟨l, hl⟩ := processCves_cves rest stats store (some c0)
        unfold hasCveId
        rw [hl]
        exact List.mem_map.mpr ⟨c0, List.mem_append_left l hmem, hkey⟩
      · exact ih stats store (some c0) cid hcid'
    | none =>
      rcases List.mem_cons.mp hcid with rfl | hcid'
      · obtain ⟨l, hl⟩ := processCves_cves rest
          { stats with cves_created := stats.cves_created + 1 }
          { store with cves := store.cves ++ [{ id := store.nextCveId, cve_id := cid }],
                       nextCveId := store.nextCveId + 1 }
          (some { id := store.nextCveId, cve_id := cid })
        unfold hasCveId
        rw [hl]
        refine List.mem_map.mpr ⟨{ id := store.nextCveId, cve_id := cid }, ?_, rfl⟩
        exact List.mem_append_left l (List.mem_append_right store.cves (by simp))
      · exact ih _ _ _ cid hcid'

/-- The CVE loop preserves every CVE id already present. -/
theorem processCves_mono (cids : List String) (stats : Stats) (store : Store)
    (cve : Option CVERow) (cid : String) (h : hasCveId store cid) :
    hasCveId (processCves stats store cve cids).2.2 cid := by
  obtain ⟨l, hl⟩ := processCves_cves cids stats store cve
  unfold hasCveId at h ⊢
  rw [hl]
  obtain ⟨c0, hc0, rfl⟩ := List.mem_map.mp h
  exact List.mem_map.mpr ⟨c0, List.mem_append_left l hc0, rfl⟩

/-- The tracker upsert leaves the `projects` table alone. -/
theorem processTrackerRow_projects (now : Nat) (raw : RawTracker) (project : ProjectRow)
    (cve : Option CVERow) (stats : Stats) (store : Store) :
    (processTrackerRow now raw project cve stats store).2.projects = store.projects := by
  unfold processTrackerRow
  split <;> rfl

/-- The tracker upsert leaves the `cves` table alone. -/
theorem processTrackerRow_cves (now : Nat) (raw : RawTracker) (project : ProjectRow)
    (cve : Option CVERow) (stats : Stats) (store : Store) :
    (processTrackerRow now raw project cve stats store).2.cves = store.cves := by
  unfold processTrackerRow
  split <;> rfl

/-- Overwriting tracker fields never changes the `jira_key`. -/
theorem applyFields_jira_key (now : Nat) (raw : RawTracker) (project : ProjectRow)
    (cve : Option CVERow) (t : TrackerRow) :
    (applyFields now raw project cve t).jira_key = t.jira_key := rfl

/-- When the tracker key is present, the upsert counts an update and
mutates the found row in place. -/
theorem processTrackerRow_found (now : Nat) (raw : RawTracker) (project : ProjectRow)
    (cve : Option CVERow) (stats : Stats) (store : Store)
    (h : hasTrkKey store raw.source_key) :
    processTrackerRow now raw project cve stats store =
      ({ stats with trackers_updated := stats.trackers_updated + 1 },
       { store with trackers := (updateFirst (fun t => t.jira_key == raw.source_key)
           (applyFields now raw project cve) store.trackers) }) := by
  cases hf : store.trackers.find? (fun t => t.jira_key == raw.source_key) with
  | none =>
    have hnot := find?_none_not_mem (fun t : TrackerRow => t.jira_key)
      raw.source_key store.trackers hf
    exact absurd h hnot
  | some t0 =>
    unfold processTrackerRow
    rw [hf]

/-- After the upsert the tracker key is present. -/
theorem processTrackerRow_has (now : Nat) (raw : RawTracker) (project : ProjectRow)
    (cve : Option CVERow) (stats : Stats) (store : Store) :
    hasTrkKey (processTrackerRow now raw project cve stats store).2 raw.source_key := by
  unfold hasTrkKey processTrackerRow
  cases hf : store.trackers.find? (fun t => t.jira_key == raw.source_key) with
  | some t0 =>
    obtain ⟨hkey, hmem⟩ := find?_some_mem (fun t : TrackerRow => t.jira_key)
      raw.source_key store.trackers t0 hf
    simp only [hf]
    rw [map_updateFirst (fun t : TrackerRow => t.jira_key) _ _
      (fun t => applyFields_jira_key now raw project cve t)]
    exact List.mem_map.mpr ⟨t0, hmem, hkey⟩
  | none =>
    simp only [hf]
    simp [applyFields_jira_key]

/-- The upsert at most appends one tracker key. -/
theorem processTrackerRow_trkmap (now : Nat) (raw : RawTracker) (project : ProjectRow)
    (cve : Option CVERow) (stats : Stats) (store : Store) :
    ∃ lt, (processTrackerRow now raw project cve stats store).2.trackers.map (·.jira_key) =
      store.trackers.map (·.jira_key) ++ lt := by
  unfold processTrackerRow
  cases hf : store.trackers.find? (fun t => t.jira_key == raw.source_key) with
  | some t0 =>
    refine ⟨[], ?_⟩
    simp only [hf]
    rw [map_updateFirst (fun t : TrackerRow => t.jira_key) _ _
      (fun t => applyFields_jira_key now raw project cve t)]
    simp
  | none =>
    refine ⟨[raw.source_key], ?_⟩
    simp only [hf]
    simp [applyFields_jira_key]

/-- `processTrackerWithProject` is the tracker upsert applied to the CVE
loop's result (definitional, via tuple eta). -/
theorem processTrackerWithProject_eq (now : Nat) (raw : RawTracker) (project : ProjectRow)
    (stats : Stats) (store : Store) :
    processTrackerWithProject now raw project stats store =
      processTrackerRow now raw project (processCves stats store none raw.cve_ids).1
        (processCves stats store none raw.cve_ids).2.1
        (processCves stats store none raw.cve_ids).2.2 := rfl

/-- Family-wise effect of the CVE loop plus tracker upsert: projects
untouched, all the record's CVE ids present, existing CVE ids kept, the
record's tracker key present, and tracker keys only appended. -/
theorem processTrackerWithProject_spec (now : Nat) (r : RawTracker) (project : ProjectRow)
    (st : Stats) (so : Store) :
    ((processTrackerWithProject now r project st so).2.projects = so.projects)
    ∧ (∀ cid ∈ r.cve_ids, hasCveId (processTrackerWithProject now r project st so).2 cid)
    ∧ (∀ cid, hasCveId so cid → hasCveId (processTrackerWithProject now r project st so).2 cid)
    ∧ hasTrkKey (processTrackerWithProject now r project st so).2 r.source_key
    ∧ (∃ lt, (processTrackerWithProject now r project st so).2.trackers.map (·.jira_key) =
        so.trackers.map (·.jira_key) ++ lt) := by
  rw [processTrackerWithProject_eq]
  refine ⟨?_, ?_, ?_, ?_, ?_⟩
  · rw [processTrackerRow_projects, processCves_projects]
  · intro cid hcid
    have := processCves_has r.cve_ids st so none cid hcid
    unfold hasCveId at this ⊢
    rwa [processTrackerRow_cves]
  · intro cid h
    have := processCves_mono r.cve_ids st so none cid h
    unfold hasCveId at this ⊢
    rwa [processTrackerRow_cves]
  · exact processTrackerRow_has now r project _ _ _
  · obtain ⟨lt, hlt⟩ := processTrackerRow_trkmap now r project
      (processCves st so none r.cve_ids).1 (processCves st so none r.cve_ids).2.1
      (processCves st so none r.cve_ids).2.2
    rw [processCves_trackers] at hlt
    exact ⟨lt, hlt⟩

/-- After processing a record, the store contains it; and whatever the
store contained, it still contains. -/
theorem processTracker_establish (now : Nat) (r : RawTracker) (st : Stats) (so : Store) :
    containsRecord (processTracker now r st so).2 r ∧
    ∀ x, containsRecord so x → containsRecord (processTracker now r st so).2 x := by
  unfold processTracker
  cases hf : so.projects.find? (fun p => p.key == r.project_key) with
  | some project =>
    simp only [hf]
    obtain ⟨hkey, hmem⟩ := find?_some_mem (fun p : ProjectRow => p.key)
      r.project_key so.projects project hf
    obtain ⟨hpj, hhas, hmono, htrk, lt, hlt⟩ :=
      processTrackerWithProject_spec now r project st so
    constructor
    · refine ⟨?_, hhas, htrk⟩
      unfold hasProjKey
      rw [hpj]
      exact List.mem_map.mpr ⟨project, hmem, hkey⟩
    · intro x hx
      obtain ⟨hx1, hx2, hx3⟩ := hx
      refine ⟨?_, fun cid hc => hmono cid (hx2 cid hc), ?_⟩
      · unfold hasProjKey at hx1 ⊢
        rwa [hpj]
      · unfold hasTrkKey at hx3 ⊢
        rw [hlt]
        exact List.mem_append_left lt hx3
  | none =>
    simp only [hf]
    obtain ⟨hpj, hhas, hmono, htrk, lt, hlt⟩ :=
      processTrackerWithProject_spec now r
        (⟨so.nextProjectId, r.project_key, r.project_key, none⟩ : ProjectRow)
        { st with projects_created := st.projects_created + 1 }
        { so with
            projects := (so.projects ++
              [(⟨so.nextProjectId, r.project_key, r.project_key, none⟩ : ProjectRow)]),
            nextProjectId := so.nextProjectId + 1 }
    constructor
    · refine ⟨?_, hhas, htrk⟩
      unfold hasProjKey
      rw [hpj]
      simp
    · intro x hx
      obtain ⟨hx1, hx2, hx3⟩ := hx
      refine ⟨?_, fun cid hc => hmono cid (hx2 cid hc), ?_⟩
      · unfold hasProjKey at hx1 ⊢
        rw [hpj]
        simp only [List.map_append, List.map_cons, List.map_nil]
        exact List.mem_append_left _ hx1
      · unfold hasTrkKey at hx3 ⊢
        rw [hlt]
        exact List.mem_append_left lt hx3

/-- Re-processing a record the store already contains counts exactly one
tracker update: no creation counter moves and no table gains or loses a
key. -/
theorem processTracker_found (now : Nat) (r : RawTracker) (st : Stats) (so : Store)
    (h : containsRecord so r) :
    (processTracker now r st so).1 = { st with trackers_updated := st.trackers_updated + 1 }
    ∧ (processTracker now r st so).2.projects = so.projects
    ∧ (processTracker now r st so).2.cves = so.cves
    ∧ (processTracker now r st so).2.trackers.map (·.jira_key) =
        so.trackers.map (·.jira_key) := by
  obtain ⟨hp, hc, ht⟩ := h
  unfold processTracker
  cases hf : so.projects.find? (fun p => p.key == r.project_key) with
  | none =>
    have hnot := find?_none_not_mem (fun p : ProjectRow => p.key)
      r.project_key so.projects hf
    exact absurd hp hnot
  | some project =>
    simp only [hf]
    rw [processTrackerWithProject_eq]
    obtain ⟨cv, hpc⟩ := processCves_found r.cve_ids st so none hc
    simp only [hpc]
    rw [processTrackerRow_found now r project cv st so ht]
    refine ⟨rfl, rfl, rfl, ?_⟩
    exact map_updateFirst (fun t : TrackerRow => t.jira_key) _ _
      (fun t => applyFields_jira_key now r project cv t) so.trackers

/-- Containment only depends on the key families. -/
theorem containsRecord_transfer (so so' : Store)
    (hp : so'.projects = so.projects) (hc : so'.cves = so.cves)
    (ht : so'.trackers.map (·.jira_key) = so.trackers.map (·.jira_key))
    (x : RawTracker) (h : containsRecord so x) : containsRecord so' x := by
  obtain ⟨h1, h2, h3⟩ := h
  refine ⟨?_, ?_, ?_⟩
  · unfold hasProjKey at h1 ⊢
    rwa [hp]
  · intro cid hcid
    have := h2 cid hcid
    unfold hasCveId at this ⊢
    rwa [hc]
  · unfold hasTrkKey at h3 ⊢
    rwa [ht]

/-- The record loop's state after a list of records (the fold that
`sync_from_source` performs with the embedded `_process_tracker`). -/
def runAll (now : Nat) (rs : List RawTracker) (st : Stats) (so : Store) : Stats × Store :=
  rs.foldl (fun acc r => processTracker now r acc.1 acc.2) (st, so)

/-- `runAll` unfolds on cons. -/
theorem runAll_cons (now : Nat) (r : RawTracker) (rs : List RawTracker)
    (st : Stats) (so : Store) :
    runAll now (r :: rs) st so =
      runAll now rs (processTracker now r st so).1 (processTracker now r st so).2 := rfl

/-- After a full run, the store contains everything it contained before
plus every processed record. -/
theorem runAll_contains (now : Nat) : ∀ (rs : List RawTracker) (st : Stats) (so : Store)
    (x : RawTracker), (containsRecord so x ∨ x ∈ rs) →
    containsRecord (runAll now rs st so).2 x := by
  intro rs
  induction rs with
  | nil =>
    intro st so x hx
    rcases hx with hx | hx
    · exact hx
    · cases hx
  | cons r rs ih =>
    intro st so x hx
    rw [runAll_cons]
    rcases hx with hx | hx
    · exact ih _ _ x (Or.inl ((processTracker_establish now r st so).2 x hx))
    · rcases List.mem_cons.mp hx with rfl | hx'
      · exact ih _ _ x (Or.inl (processTracker_establish now x st so).1)
      · exact ih _ _ x (Or.inr hx')

/-- A run over records the store already contains performs only
updates: creation counters frozen, one update per record. -/
theorem runAll_found (now : Nat) : ∀ (rs : List RawTracker) (st : Stats) (so : Store),
    (∀ x ∈ rs, containsRecord so x) →
    (runAll now rs st so).1.trackers_created = st.trackers_created
    ∧ (runAll now rs st so).1.cves_created = st.cves_created
    ∧ (runAll now rs st so).1.projects_created = st.projects_created
    ∧ (runAll now rs st so).1.trackers_updated = st.trackers_updated + rs.length := by
  intro rs
  induction rs with
  | nil => intro st so _; exact ⟨rfl, rfl, rfl, by simp [runAll]⟩
  | cons r rs ih =>
    intro st so hall
    obtain ⟨hst, hpj, hcv, htk⟩ :=
      processTracker_found now r st so (hall r (List.mem_cons_self r rs))
    have hall' : ∀ x ∈ rs, containsRecord (processTracker now r st so).2 x := by
      intro x hx
      exact containsRecord_transfer so _ hpj hcv htk x (hall x (List.mem_cons_of_mem r hx))
    obtain ⟨h1, h2, h3, h4⟩ := ih (processTracker now r st so).1
      (processTracker now r st so).2 hall'
    rw [runAll_cons]
    refine ⟨?_, ?_, ?_, ?_⟩
    · rw [h1, hst]
    · rw [h2, hst]
    · rw [h3, hst]
    · rw [h4, hst]
      simp only [List.length_cons]
      omega

/-- With the embedded `_process_tracker`, the record loop is the fold. -/
theorem syncLoop_records (now : Nat) : ∀ (rs : List RawTracker) (st : Stats) (so : Store),
    syncLoop (procTrackerE now) (rs.map FetchItem.record) st so =
      .ok (runAll now rs st so) := by
  intro rs
  induction rs with
  | nil => intro st so; rfl
  | cons r rs ih =>
    intro st so
    simp only [List.map_cons, syncLoop, procTrackerE]
    rw [ih, runAll_cons]

/-- Claim C2: syncing the same record sequence a second time, against
the store left by a first successful run, creates nothing — zero
trackers, CVEs and projects created — and counts every record as a
tracker update. -/
theorem claim_C2_second_run_idempotent (now1 now2 : Nat) (rs : List RawTracker)
    (keys : List String) (store : Store) (hk : keys ≠ [])
    (st1 st2 : Stats) (store1 store2 : Store)
    (h1 : sync_from_source (procTrackerE now1) (rs.map FetchItem.record) keys store =
      .ok (st1, store1))
    (h2 : sync_from_source (procTrackerE now2) (rs.map FetchItem.record) keys store1 =
      .ok (st2, store2)) :
    st2.trackers_created = 0 ∧ st2.cves_created = 0 ∧ st2.projects_created = 0
    ∧ st2.trackers_updated = rs.length := by
  have hne : keys.isEmpty = false := by
    cases keys with
    | nil => exact absurd rfl hk
    | cons a l => rfl
  rw [sync_from_source, hne] at h1 h2
  simp only [Bool.false_eq_true, if_false] at h1 h2
  rw [syncLoop_records] at h1 h2
  injection h1 with h1'
  injection h2 with h2'
  have hstore1 : store1 = (runAll now1 rs initStats store).2 :=
    (congrArg Prod.snd h1').symm
  have hcontains : ∀ x ∈ rs, containsRecord store1 x := by
    intro x hx
    rw [hstore1]
    exact runAll_contains now1 rs initStats store x (Or.inr hx)
  have hrun2 := runAll_found now2 rs initStats store1 hcontains
  have hst2 : st2 = (runAll now2 rs initStats store1).1 :=
    (congrArg Prod.fst h2').symm
  rw [hst2]
  refine ⟨hrun2.1, hrun2.2.1, hrun2.2.2.1, ?_⟩
  rw [hrun2.2.2.2]
  simp [initStats]

/-- The record used by the C2 witness. -/
def c2rec : RawTracker :=
  { source_key := "ACME-1", source_type := "jira", project_key := "ACME",
    cve_ids := ["CVE-2024-0001"] }

/-- Witness for claim C2: two consecutive runs of the same single-record
stream; the second run creates nothing and counts one update. -/
theorem claim_C2_witness :
    ∃ st1 store1 st2 store2,
      sync_from_source (procTrackerE 0) ([c2rec].map FetchItem.record) ["ACME"] {} =
        .ok (st1, store1)
      ∧ sync_from_source (procTrackerE 1) ([c2rec].map FetchItem.record) ["ACME"] store1 =
        .ok (st2, store2)
      ∧ st2.trackers_created = 0 ∧ st2.cves_created = 0 ∧ st2.projects_created = 0
      ∧ st2.trackers_updated = [c2rec].length := by
  refine ⟨_, _, _, _, rfl, rfl, ?_⟩
  exact claim_C2_second_run_idempotent 0 1 [c2rec] ["ACME"] {} (by decide) _ _ _ _ rfl rfl

end Caseload
